import Mathlib

/-!
Verification of the industrial-monitor dashboard front-end.

This file gives a shallow embedding of the alert-threshold evaluator
(`modules/alerts/alert-manager.js`), the global state store
(`state/store.js`), the connection-mode selector and polling fallback loop
(`modules/dashboard/realtime-monitor.js`) and the WebSocket wrapper's
reconnect policy, and proves the behavioural properties stated about them.

Numbers carried by sensor readings are embedded as rationals; timestamps as
naturals; `crypto.randomUUID()` freshness is embedded as a counter of ids
never used before.  JavaScript `Map`s are embedded as association lists with
`Map.prototype.set` / `delete` semantics.
-/

namespace IndustrialMonitor

/-- Alert severity, as the string values `'normal' | 'warning' | 'critical'`
used by `checkThreshold`. -/
inductive Severity
  | normal
  | warning
  | critical
deriving DecidableEq, Repr

/-- Which branch of the `checkThreshold` if/else-if chain fired.  The branch
determines both the severity and the message template (CRÍTICA /
CRÍTICAMENTE BAJA / ALTA / BAJA / no message). -/
inductive ThresholdClass
  | critHigh
  | critLow
  | warnHigh
  | warnLow
  | inBand
deriving DecidableEq, Repr

/-- Per-variable threshold configuration (`config.MOTORS[..].variables[..]`):
`normalMin`, `normalMax`, optional `critical` (high) and `criticalLow`
bounds, plus display name and unit. -/
structure VariableConfig where
  key : String
  name : String
  unit : String
  normalMin : ℚ
  normalMax : ℚ
  critical : Option ℚ
  criticalLow : Option ℚ
deriving DecidableEq, Repr

/-- Embeds `variable.critical !== undefined && value >= variable.critical`. -/
def critHighTest (critical : Option ℚ) (value : ℚ) : Bool :=
  match critical with
  | some c => decide (value ≥ c)
  | none => false

/-- Embeds `variable.criticalLow !== undefined && value <= variable.criticalLow`. -/
def critLowTest (criticalLow : Option ℚ) (value : ℚ) : Bool :=
  match criticalLow with
  | some c => decide (value ≤ c)
  | none => false

/-- The if/else-if chain of `checkThreshold` (alert-manager.js lines 94-113),
read off the source code: critical high, else critical low, else warning
high, else warning low, else in-band. -/
def classify (cfg : VariableConfig) (value : ℚ) : ThresholdClass :=
  if critHighTest cfg.critical value then .critHigh
  else if critLowTest cfg.criticalLow value then .critLow
  else if value > cfg.normalMax then .warnHigh
  else if value < cfg.normalMin then .warnLow
  else .inBand

/-- Severity assigned by each branch of the chain. -/
def severityOf : ThresholdClass → Severity
  | .critHigh => .critical
  | .critLow => .critical
  | .warnHigh => .warning
  | .warnLow => .warning
  | .inBand => .normal

/-- Content of the human-readable alert message: the template is chosen by
the branch, and it interpolates motor name, variable name, value and unit. -/
structure MessageData where
  template : ThresholdClass
  motorName : String
  variableName : String
  value : ℚ
  unit : String
deriving DecidableEq, Repr

/-- The `message` stays the empty string on the in-band branch; each other branch
fills its template.  `Option` embeds JavaScript's truthiness test
`severity !== 'normal' && message`. -/
def buildMessage (cls : ThresholdClass) (motorName variableName : String)
    (value : ℚ) (unit : String) : Option MessageData :=
  match cls with
  | .inBand => none
  | c => some ⟨c, motorName, variableName, value, unit⟩

/-- One alert record as built by `handleAlert` (and mutated in place while
the breach persists). -/
structure AlertRec where
  id : ℕ
  key : String
  motor : String
  motorId : String
  variableName : String
  variableKey : String
  value : ℚ
  unit : String
  severity : Severity
  message : Option MessageData
  timestamp : ℕ
  updateCount : ℕ
  resolved : Bool
  resolvedAt : Option ℕ
deriving DecidableEq, Repr

/-- Association-list read with `Map.prototype.get` semantics. -/
def mapLookup {α : Type} : List (String × α) → String → Option α
  | [], _ => none
  | (k₀, v₀) :: rest, k => if k₀ = k then some v₀ else mapLookup rest k

/-- Association-list update with `Map.prototype.set` semantics: replace the
binding in place if the key is present, otherwise append. -/
def mapSet {α : Type} (m : List (String × α)) (k : String) (v : α) :
    List (String × α) :=
  match m with
  | [] => [(k, v)]
  | (k₀, v₀) :: rest =>
      if k₀ = k then (k, v) :: rest else (k₀, v₀) :: mapSet rest k v

/-- Association-list removal with `Map.prototype.delete` semantics. -/
def mapDelete {α : Type} (m : List (String × α)) (k : String) :
    List (String × α) :=
  match m with
  | [] => []
  | (k₀, v₀) :: rest =>
      if k₀ = k then rest else (k₀, v₀) :: mapDelete rest k

/-- State owned by one `AlertManager` instance: the `activeAlerts` map
(alertKey → alert), the `alertHistory` array (newest first), the
`lastCheckedValues` map, and the supply of fresh ids standing in for
`crypto.randomUUID()`. -/
structure AMState where
  activeAlerts : List (String × AlertRec)
  alertHistory : List AlertRec
  lastCheckedValues : List (String × ℚ)
  nextId : ℕ
deriving DecidableEq, Repr

/-- The capacity `this.maxHistory = 100`. -/
def maxHistory : ℕ := 100

/-- Embeds `handleAlert(alertData)`: update the existing active alert for the key in
place (value, severity, message, timestamp, `updateCount + 1`), or create a
fresh record with `updateCount` 1, put it in the active map, unshift a copy
onto the history, and evict the last history entry when the capacity of 100
is exceeded. -/
def handleAlert (s : AMState) (key motor motorId variableName variableKey : String)
    (value : ℚ) (unit : String) (severity : Severity)
    (message : Option MessageData) (timestamp : ℕ) : AMState :=
  match mapLookup s.activeAlerts key with
  | some existingAlert =>
      let updated := { existingAlert with
        value := value
        severity := severity
        message := message
        timestamp := timestamp
        updateCount := existingAlert.updateCount + 1 }
      { s with activeAlerts := mapSet s.activeAlerts key updated }
  | none =>
      let newAlert : AlertRec :=
        { id := s.nextId
          key := key
          motor := motor
          motorId := motorId
          variableName := variableName
          variableKey := variableKey
          value := value
          unit := unit
          severity := severity
          message := message
          timestamp := timestamp
          updateCount := 1
          resolved := false
          resolvedAt := none }
      let hist₀ := newAlert :: s.alertHistory
      let hist := if hist₀.length > maxHistory then hist₀.dropLast else hist₀
      { s with
          activeAlerts := mapSet s.activeAlerts key newAlert
          alertHistory := hist
          nextId := s.nextId + 1 }

/-- Embeds `this.alertHistory.find(a => a.key === alertKey)` followed by the in-place
mutation `resolved = true; resolvedAt = ...`: mark the first history entry
with the given key resolved, leave everything else in place. -/
def markFirstResolved : List AlertRec → String → ℕ → List AlertRec
  | [], _, _ => []
  | a :: rest, k, now =>
      if a.key = k then { a with resolved := true, resolvedAt := some now } :: rest
      else a :: markFirstResolved rest k now

/-- Embeds `resolveAlertByKey(alertKey)`: if no active alert holds the key, return;
otherwise delete it from the active map and mark its history entry
resolved. -/
def resolveAlertByKey (s : AMState) (alertKey : String) (now : ℕ) : AMState :=
  match mapLookup s.activeAlerts alertKey with
  | none => s
  | some _ =>
      { s with
          activeAlerts := mapDelete s.activeAlerts alertKey
          alertHistory := markFirstResolved s.alertHistory alertKey now }

/-- Embeds `resolveAlert(alertId)`: look the id up among the active alerts' values;
if absent, return; otherwise resolve by the found alert's key. -/
def resolveAlert (s : AMState) (alertId : ℕ) (now : ℕ) : AMState :=
  match (s.activeAlerts.map Prod.snd).find? (fun a => a.id = alertId) with
  | none => s
  | some alert => resolveAlertByKey s alert.key now

/-- Embeds `motorId === 'motor1' ? 'Motor Principal' : 'Motor Secundario'`. -/
def motorNameOf (motorId : String) : String :=
  if motorId = "motor1" then "Motor Principal" else "Motor Secundario"

/-- The body of `checkThreshold` after the hysteresis filter: record the
value in `lastCheckedValues`, run the threshold chain, and either upsert an
alert (non-normal severity with a message) or resolve the active alert for
the key if the value is back in band. -/
def evalThreshold (s : AMState) (motorId : String) (cfg : VariableConfig)
    (value : ℚ) (now : ℕ) : AMState :=
  let motorName := motorNameOf motorId
  let alertKey := motorId ++ "-" ++ cfg.key
  let s₁ := { s with lastCheckedValues := mapSet s.lastCheckedValues alertKey value }
  let cls := classify cfg value
  let severity := severityOf cls
  let message := buildMessage cls motorName cfg.name value cfg.unit
  if severity ≠ Severity.normal ∧ message.isSome then
    handleAlert s₁ alertKey motorName motorId cfg.name cfg.key value cfg.unit
      severity message now
  else if (mapLookup s₁.activeAlerts alertKey).isSome then
    resolveAlertByKey s₁ alertKey now
  else s₁

/-- Embeds `checkThreshold(motorId, variable, value)` (alert-manager.js lines
78-133): skip the whole evaluation when a previous value is recorded for the
key and the reading moved by less than `0.02 * normalMax`; otherwise run
`evalThreshold`. -/
def checkThreshold (s : AMState) (motorId : String) (cfg : VariableConfig)
    (value : ℚ) (now : ℕ) : AMState :=
  let alertKey := motorId ++ "-" ++ cfg.key
  match mapLookup s.lastCheckedValues alertKey with
  | some lastValue =>
      if |value - lastValue| < cfg.normalMax * (2 / 100) then s
      else evalThreshold s motorId cfg value now
  | none => evalThreshold s motorId cfg value now

/-- First demo history record pushed by `loadDemoHistory` (resolved critical
temperature alert for motor 1). -/
def demoAlert1 : AlertRec :=
  { id := 0
    key := "motor1-temperature-demo"
    motor := "Motor Principal"
    motorId := "motor1"
    variableName := "Temperatura"
    variableKey := "temperature"
    value := 1055 / 10
    unit := "°C"
    severity := .critical
    message := some ⟨.critHigh, "Motor Principal", "Temperatura", 1055 / 10, "°C"⟩
    timestamp := 0
    updateCount := 0
    resolved := true
    resolvedAt := some 1 }

/-- Second demo history record pushed by `loadDemoHistory` (unresolved
low-oil-pressure warning for motor 2). -/
def demoAlert2 : AlertRec :=
  { id := 1
    key := "motor2-oil_pressure-demo"
    motor := "Motor Secundario"
    motorId := "motor2"
    variableName := "Presión de Aceite"
    variableKey := "oil_pressure"
    value := 283 / 10
    unit := "Psi"
    severity := .warning
    message := some ⟨.warnLow, "Motor Secundario", "Presión de Aceite", 283 / 10, "Psi"⟩
    timestamp := 0
    updateCount := 0
    resolved := false
    resolvedAt := none }

/-- The `AlertManager` state right after the constructor ran: empty maps, and the
two demo records `loadDemoHistory` pushed onto the (empty) history. -/
def initAMState : AMState :=
  { activeAlerts := []
    alertHistory := [demoAlert1, demoAlert2]
    lastCheckedValues := []
    nextId := 2 }

/-- Embeds `clearResolvedAlerts()`: drop resolved records from the history. -/
def clearResolvedAlerts (s : AMState) : AMState :=
  { s with alertHistory := s.alertHistory.filter (fun a => !a.resolved) }

/-- Embeds `destroy()`: clear active alerts, history and last-checked values. -/
def destroyAM (s : AMState) : AMState :=
  { s with activeAlerts := [], alertHistory := [], lastCheckedValues := [] }

/-- One externally triggerable operation on an `AlertManager`: a threshold
check coming in from a motors update, a manual/automatic resolve by id, the
`alerts:clear` handler, or `destroy()`. -/
inductive AMStep : AMState → AMState → Prop
  | check (s : AMState) (motorId : String) (cfg : VariableConfig) (value : ℚ)
      (now : ℕ) : AMStep s (checkThreshold s motorId cfg value now)
  | resolveById (s : AMState) (alertId now : ℕ) :
      AMStep s (resolveAlert s alertId now)
  | clear (s : AMState) : AMStep s (clearResolvedAlerts s)
  | destroy (s : AMState) : AMStep s (destroyAM s)

/-- States an `AlertManager` can reach from its freshly constructed state. -/
def AMReachable (s : AMState) : Prop :=
  Relation.ReflTransGen AMStep initAMState s

/-! ## Connection mode selector and polling fallback loop
(`modules/dashboard/realtime-monitor.js`) -/

/-- The mode `connectionState.mode`: `'websocket' | 'polling' | 'offline' | 'none'`. -/
inductive ConnMode
  | websocket
  | polling
  | offline
  | noneMode
deriving DecidableEq, Repr

/-- The cap `this.maxPollingRetries = 3`. -/
def maxPollingRetries : ℕ := 3

/-- The `RealtimeMonitor` state relevant to mode selection and the polling loop:
the connection mode, the consecutive-failure counter `pollingRetries`, the
in-flight flag `isPollingActive`, the `isSimulated` markers written into the
store for the two motors, and a ghost count `inFlight` of polling cycles
currently executing (a cycle is counted from the moment
`executePollingCycle` sets the flag until its `finally` block runs). -/
structure RMState where
  mode : ConnMode
  pollingRetries : ℕ
  isPollingActive : Bool
  inFlight : ℕ
  motor1Simulated : Bool
  motor2Simulated : Bool
deriving DecidableEq, Repr

/-- Embeds `activateOfflineMode()`: switch the mode to offline and populate
simulated data for both motors (`useSimulatedData` writes records carrying
`isSimulated: true`); the recovery attempt it schedules is delivered later
as the `recoveryTimer` event. -/
def activateOfflineMode (s : RMState) : RMState :=
  { s with mode := .offline, motor1Simulated := true, motor2Simulated := true }

/-- Events the `RealtimeMonitor` reacts to: a tick of the fallback polling
interval, completion (success or failure) of a running polling cycle, the
three WebSocket events, the 30-second offline recovery timeout, and the
10-second health check finding the WebSocket stale. -/
inductive RMEvent
  | pollTick
  | cycleSuccess
  | cycleFailure
  | wsConnected
  | wsDisconnected
  | wsMaxRetriesEvt
  | recoveryTimer
  | healthCheckStale
deriving DecidableEq, Repr

/-- One event handler dispatch of the `RealtimeMonitor`.  `pollTick` starts a
cycle only when the mode is polling and no cycle is marked in flight
(`startFallbackPolling`); a completing cycle resets or increments
`pollingRetries`, escalates to offline after `maxPollingRetries` consecutive
failures (`handlePollingError`), and always clears the flag in its `finally`
block; `wsConnected` pauses polling, `wsDisconnected` and a stale health
check resume it (both set `isPollingActive = false`); `wsMaxRetriesEvt`
activates offline mode; `recoveryTimer` fires 30s after offline activation
and, if the mode is still offline, returns to polling with the counter
cleared. -/
def rmStep (s : RMState) : RMEvent → RMState
  | .pollTick =>
      if s.mode = .polling ∧ s.isPollingActive = false then
        { s with isPollingActive := true, inFlight := s.inFlight + 1 }
      else s
  | .cycleSuccess =>
      if s.inFlight > 0 then
        { s with pollingRetries := 0, isPollingActive := false,
                 inFlight := s.inFlight - 1 }
      else s
  | .cycleFailure =>
      if s.inFlight > 0 then
        let retries := s.pollingRetries + 1
        let s₁ := { s with pollingRetries := retries }
        let s₂ := if retries ≥ maxPollingRetries then activateOfflineMode s₁ else s₁
        { s₂ with isPollingActive := false, inFlight := s.inFlight - 1 }
      else s
  | .wsConnected => { s with mode := .websocket, isPollingActive := false }
  | .wsDisconnected => { s with mode := .polling, isPollingActive := false }
  | .wsMaxRetriesEvt => activateOfflineMode s
  | .recoveryTimer =>
      if s.mode = .offline then
        { s with mode := .polling, pollingRetries := 0, isPollingActive := false }
      else s
  | .healthCheckStale =>
      if s.mode = .websocket then
        { s with mode := .polling, isPollingActive := false }
      else s

/-- Run a sequence of monitor events. -/
def rmRun (s : RMState) : List RMEvent → RMState
  | [] => s
  | e :: rest => rmRun (rmStep s e) rest

/-- The `RealtimeMonitor` state right after `start()`: the mode is optimistically
`websocket`, counters are zero, no cycle is in flight. -/
def rmInit : RMState :=
  { mode := .websocket
    pollingRetries := 0
    isPollingActive := false
    inFlight := 0
    motor1Simulated := false
    motor2Simulated := false }

/-- States the monitor can reach from `start()` under any event sequence. -/
def RMReachable (s : RMState) : Prop :=
  ∃ events : List RMEvent, rmRun rmInit events = s

/-! ## WebSocket wrapper reconnect policy (`WebSocketService`) -/

/-- The base delay `this.reconnectInterval = 3000` (milliseconds). -/
def reconnectInterval : ℚ := 3000

/-- The retry cap `this.maxRetries = 10`. -/
def wsMaxRetries : ℕ := 10

/-- Retry bookkeeping of the `WebSocketService`. -/
structure WSState where
  currentRetries : ℕ
  isManualClose : Bool
deriving DecidableEq, Repr

/-- The delay `scheduleReconnect()` computes for retry number `n` (the value of
`currentRetries` after the increment):
`this.reconnectInterval * Math.pow(1.5, this.currentRetries - 1)`. -/
def reconnectDelay (n : ℕ) : ℚ :=
  reconnectInterval * (3 / 2) ^ (n - 1)

/-- Embeds `scheduleReconnect()`: bail out at the retry cap, otherwise increment the
counter and schedule a reconnect after `reconnectDelay` milliseconds. -/
def scheduleReconnect (s : WSState) : WSState × Option ℚ :=
  if s.currentRetries ≥ wsMaxRetries then (s, none)
  else
    let r := s.currentRetries + 1
    ({ s with currentRetries := r }, some (reconnectDelay r))

/-- Externally visible effect of the `socket.onclose` handler. -/
inductive CloseAction
  | scheduledReconnect (delay : ℚ)
  | emitMaxRetries
  | noAction
deriving DecidableEq, Repr

/-- The `socket.onclose` handler: on a non-manual close with retries left,
schedule a reconnect; on a non-manual close at the cap, dispatch the
`websocket:maxRetries` event; on a manual close, do nothing. -/
def onClose (s : WSState) : WSState × CloseAction :=
  if s.isManualClose = false ∧ s.currentRetries < wsMaxRetries then
    match scheduleReconnect s with
    | (s₁, some d) => (s₁, .scheduledReconnect d)
    | (s₁, none) => (s₁, .noAction)
  else if s.isManualClose = false then (s, .emitMaxRetries)
  else (s, .noAction)

/-! ## Global state store (`state/store.js`) -/

/-- An alert record as stored by `StateStore.addAlert`: the caller-supplied
fields (abstracted as `payload`) plus the store-generated `id`, `timestamp`
and `resolved` flag, which overwrite anything the caller supplied because
they come after the spread in the object literal. -/
structure StoreAlert where
  payload : String
  id : ℕ
  timestamp : ℕ
  resolved : Bool
deriving DecidableEq, Repr

/-- The argument object given to `StateStore.addAlert`: arbitrary payload
fields plus possibly its own `id`, `timestamp` or `resolved` fields. -/
structure AlertArg where
  payload : String
  id : Option ℕ
  timestamp : Option ℕ
  resolved : Option Bool
deriving DecidableEq, Repr

/-- The slice of `StateStore` state touched by `addAlert`:
`state.alerts.active`, `state.alerts.history`, `state.kpis.activeAlerts`,
and the fresh-id supply standing in for `crypto.randomUUID()`. -/
structure StoreState where
  alertsActive : List StoreAlert
  alertsHistory : List StoreAlert
  kpiActiveAlerts : ℕ
  nextId : ℕ
deriving DecidableEq, Repr

/-- Embeds `StateStore.addAlert(alert)`: build a record from the argument with a
freshly generated id, a new timestamp and `resolved: false`; push it onto
the active list, unshift it onto the history (evicting the last entry past
100), and set `kpis.activeAlerts` to the active list's length. -/
def storeAddAlert (s : StoreState) (alert : AlertArg) (now : ℕ) : StoreState :=
  let newAlert : StoreAlert :=
    { payload := alert.payload, id := s.nextId, timestamp := now, resolved := false }
  let active := s.alertsActive ++ [newAlert]
  let hist₀ := newAlert :: s.alertsHistory
  let hist := if hist₀.length > 100 then hist₀.dropLast else hist₀
  { alertsActive := active
    alertsHistory := hist
    kpiActiveAlerts := active.length
    nextId := s.nextId + 1 }

/-- The severity rule exactly as worded in the specification, for comparison
against the code's `classify` chain: "if critical is defined and
`value >= critical` then critical; else if criticalLow is defined and
`value <= criticalLow` then critical; else if `value > normalMax` then
warning; else if `value < normalMin` then warning; otherwise normal". -/
def severitySpec (cfg : VariableConfig) (value : ℚ) : Severity :=
  if cfg.critical.any (fun c => decide (value ≥ c)) then .critical
  else if cfg.criticalLow.any (fun c => decide (value ≤ c)) then .critical
  else if value > cfg.normalMax then .warning
  else if value < cfg.normalMin then .warning
  else .normal

/-- The sample threshold configuration used by the specification's worked
scenario: motor temperature with `critical = 105`, `normalMax = 95`. -/
def tempConfig : VariableConfig :=
  { key := "temperature"
    name := "Temperatura"
    unit := "°C"
    normalMin := 20
    normalMax := 95
    critical := some 105
    criticalLow := none }

/-- An `AlertManager` state whose hysteresis map remembers the value 106 for
motor 1's temperature. -/
def sampleState : AMState :=
  { initAMState with lastCheckedValues := [("motor1-temperature", 106)] }

/-- The state after the specification's scenario reading 106 on motor 1's
temperature: a critical alert has been created. -/
def breachedState : AMState :=
  checkThreshold initAMState "motor1" tempConfig 106 5

/-- An `AlertManager` state whose history is at full capacity (100
records). -/
def fullHistState : AMState :=
  { initAMState with alertHistory := List.replicate 100 demoAlert1 }

/-- The active alert record held by `breachedState`. -/
def breachAlert : AlertRec :=
  { id := 2
    key := "motor1-temperature"
    motor := "Motor Principal"
    motorId := "motor1"
    variableName := "Temperatura"
    variableKey := "temperature"
    value := 106
    unit := "°C"
    severity := .critical
    message := some ⟨.critHigh, "Motor Principal", "Temperatura", 106, "°C"⟩
    timestamp := 5
    updateCount := 1
    resolved := false
    resolvedAt := none }

/-- The monitor state right after `websocket:disconnected` switched the
freshly started monitor to polling mode. -/
def rmPollingInit : RMState :=
  rmStep rmInit .wsDisconnected

/-- An event interleaving in which a WebSocket reconnect and a new
disconnect arrive while a polling cycle's fetch is still pending. -/
def singleFlightTrace : List RMEvent :=
  [.wsDisconnected, .pollTick, .wsConnected, .wsDisconnected, .pollTick]

/-- The in-flight flag accounts exactly for the running polling cycles: the
ghost cycle count is 1 when the flag is set and 0 when it is clear. -/
def SingleFlightInv (s : RMState) : Prop :=
  s.inFlight = (if s.isPollingActive = true then 1 else 0)

/-- A sample store state with a fresh-id supply at 7. -/
def sampleStore : StoreState :=
  { alertsActive := []
    alertsHistory := []
    kpiActiveAlerts := 0
    nextId := 7 }

/-- A sample `addAlert` argument that tries to smuggle in its own `id`,
`timestamp` and `resolved` fields. -/
def sampleArg : AlertArg :=
  { payload := "overtemp"
    id := some 3
    timestamp := some 1
    resolved := some true }

/-! ## Association-list lemmas (JavaScript `Map` semantics) -/

theorem mapLookup_cons_eq {α : Type} (k : String) (v : α)
    (rest : List (String × α)) : mapLookup ((k, v) :: rest) k = some v := by
  simp [mapLookup]

theorem mapLookup_cons_ne {α : Type} (k₀ k : String) (v : α)
    (rest : List (String × α)) (h : k₀ ≠ k) :
    mapLookup ((k₀, v) :: rest) k = mapLookup rest k := by
  simp [mapLookup, h]

theorem mapSet_cons_eq {α : Type} (k : String) (v₀ v : α)
    (rest : List (String × α)) : mapSet ((k, v₀) :: rest) k v = (k, v) :: rest := by
  simp [mapSet]

theorem mapSet_cons_ne {α : Type} (k₀ k : String) (v₀ v : α)
    (rest : List (String × α)) (h : k₀ ≠ k) :
    mapSet ((k₀, v₀) :: rest) k v = (k₀, v₀) :: mapSet rest k v := by
  simp [mapSet, h]

theorem mapDelete_cons_eq {α : Type} (k : String) (v₀ : α)
    (rest : List (String × α)) : mapDelete ((k, v₀) :: rest) k = rest := by
  simp [mapDelete]

theorem mapDelete_cons_ne {α : Type} (k₀ k : String) (v₀ : α)
    (rest : List (String × α)) (h : k₀ ≠ k) :
    mapDelete ((k₀, v₀) :: rest) k = (k₀, v₀) :: mapDelete rest k := by
  simp [mapDelete, h]

theorem mapLookup_mapSet_self {α : Type} (m : List (String × α)) (k : String)
    (v : α) : mapLookup (mapSet m k v) k = some v := by
  induction m with
  | nil => simp [mapSet, mapLookup]
  | cons p rest ih =>
      obtain ⟨k₀, v₀⟩ := p
      by_cases h : k₀ = k
      · subst h
        rw [mapSet_cons_eq, mapLookup_cons_eq]
      · rw [mapSet_cons_ne _ _ _ _ _ h, mapLookup_cons_ne _ _ _ _ h, ih]

theorem mapLookup_mapSet_ne {α : Type} (m : List (String × α)) (k k' : String)
    (v : α) (h : k' ≠ k) : mapLookup (mapSet m k v) k' = mapLookup m k' := by
  induction m with
  | nil =>
      rw [show mapSet ([] : List (String × α)) k v = [(k, v)] from rfl,
        mapLookup_cons_ne _ _ _ _ (fun e => h e.symm)]
  | cons p rest ih =>
      obtain ⟨k₀, v₀⟩ := p
      by_cases hk : k₀ = k
      · subst hk
        rw [mapSet_cons_eq, mapLookup_cons_ne _ _ _ _ (fun e => h e.symm),
          mapLookup_cons_ne _ _ _ _ (fun e => h e.symm)]
      · by_cases hk' : k₀ = k'
        · subst hk'
          rw [mapSet_cons_ne _ _ _ _ _ hk, mapLookup_cons_eq, mapLookup_cons_eq]
        · rw [mapSet_cons_ne _ _ _ _ _ hk, mapLookup_cons_ne _ _ _ _ hk',
            mapLookup_cons_ne _ _ _ _ hk', ih]

theorem mem_keys_mapSet {α : Type} (m : List (String × α)) (k x : String)
    (v : α) : x ∈ (mapSet m k v).map Prod.fst ↔ x = k ∨ x ∈ m.map Prod.fst := by
  induction m with
  | nil => simp [mapSet]
  | cons p rest ih =>
      obtain ⟨k₀, v₀⟩ := p
      by_cases h : k₀ = k
      · subst h
        rw [mapSet_cons_eq]
        simp only [List.map_cons, List.mem_cons]
        tauto
      · rw [mapSet_cons_ne _ _ _ _ _ h]
        simp only [List.map_cons, List.mem_cons, ih]
        tauto

theorem keys_nodup_mapSet {α : Type} (m : List (String × α)) (k : String)
    (v : α) (h : (m.map Prod.fst).Nodup) :
    ((mapSet m k v).map Prod.fst).Nodup := by
  induction m with
  | nil => simp [mapSet]
  | cons p rest ih =>
      obtain ⟨k₀, v₀⟩ := p
      simp only [List.map_cons, List.nodup_cons] at h
      by_cases hk : k₀ = k
      · subst hk
        rw [mapSet_cons_eq]
        simp only [List.map_cons, List.nodup_cons]
        exact h
      · have hmem : k₀ ∉ (mapSet rest k v).map Prod.fst := by
          intro hmem
          rcases (mem_keys_mapSet rest k k₀ v).mp hmem with h' | h'
          · exact hk h'
          · exact h.1 h'
        rw [mapSet_cons_ne _ _ _ _ _ hk]
        simp only [List.map_cons, List.nodup_cons]
        exact ⟨hmem, ih h.2⟩

theorem mapDelete_sublist {α : Type} (m : List (String × α)) (k : String) :
    (mapDelete m k).Sublist m := by
  induction m with
  | nil => simp [mapDelete]
  | cons p rest ih =>
      obtain ⟨k₀, v₀⟩ := p
      by_cases h : k₀ = k
      · subst h
        rw [mapDelete_cons_eq]
        exact List.sublist_cons_self (k₀, v₀) rest
      · rw [mapDelete_cons_ne _ _ _ _ h]
        exact ih.cons₂ (k₀, v₀)

theorem keys_nodup_mapDelete {α : Type} (m : List (String × α)) (k : String)
    (h : (m.map Prod.fst).Nodup) : ((mapDelete m k).map Prod.fst).Nodup :=
  ((mapDelete_sublist m k).map Prod.fst).nodup h

theorem mapLookup_eq_none_of_not_mem {α : Type} (m : List (String × α))
    (k : String) (h : k ∉ m.map Prod.fst) : mapLookup m k = none := by
  induction m with
  | nil => simp [mapLookup]
  | cons p rest ih =>
      obtain ⟨k₀, v₀⟩ := p
      simp only [List.map_cons, List.mem_cons] at h
      push_neg at h
      rw [mapLookup_cons_ne _ _ _ _ (fun e => h.1 e.symm), ih h.2]

theorem mapLookup_mapDelete_self {α : Type} (m : List (String × α))
    (k : String) (h : (m.map Prod.fst).Nodup) :
    mapLookup (mapDelete m k) k = none := by
  induction m with
  | nil => simp [mapDelete, mapLookup]
  | cons p rest ih =>
      obtain ⟨k₀, v₀⟩ := p
      simp only [List.map_cons, List.nodup_cons] at h
      by_cases hk : k₀ = k
      · subst hk
        rw [mapDelete_cons_eq]
        exact mapLookup_eq_none_of_not_mem rest k₀ h.1
      · rw [mapDelete_cons_ne _ _ _ _ hk, mapLookup_cons_ne _ _ _ _ hk]
        exact ih h.2

/-! ## History-marking lemmas -/

theorem markFirstResolved_length (l : List AlertRec) (k : String) (now : ℕ) :
    (markFirstResolved l k now).length = l.length := by
  induction l with
  | nil => simp [markFirstResolved]
  | cons a rest ih =>
      by_cases h : a.key = k <;> simp [markFirstResolved, h, ih]

theorem markFirstResolved_resolves (l : List AlertRec) (k : String) (now : ℕ)
    (h : ∃ e ∈ l, e.key = k) :
    ∃ e ∈ markFirstResolved l k now,
      e.key = k ∧ e.resolved = true ∧ e.resolvedAt = some now := by
  induction l with
  | nil => simp at h
  | cons a rest ih =>
      by_cases hk : a.key = k
      · exact ⟨{ a with resolved := true, resolvedAt := some now },
          by simp [markFirstResolved, hk], by simp [hk]⟩
      · obtain ⟨e, he, hek⟩ := h
        rcases List.mem_cons.mp he with rfl | he'
        · exact absurd hek hk
        · obtain ⟨e', he', hprops⟩ := ih ⟨e, he', hek⟩
          exact ⟨e', by simp [markFirstResolved, hk, he'], hprops⟩

/-! ## The specification's severity rule, and sample inputs -/

theorem severityOf_eq_normal_iff (c : ThresholdClass) :
    severityOf c = .normal ↔ c = .inBand := by
  cases c <;> simp [severityOf]

theorem severityOf_classify_eq_spec (cfg : VariableConfig) (value : ℚ) :
    severityOf (classify cfg value) = severitySpec cfg value := by
  unfold classify severitySpec critHighTest critLowTest
  cases cfg.critical <;> cases cfg.criticalLow <;>
    simp only [Option.any_none, Option.any_some, Bool.false_eq_true,
      if_false, decide_eq_true_eq] <;>
    split_ifs <;> simp_all [severityOf]

theorem buildMessage_isSome (cls : ThresholdClass) (mn vn : String) (v : ℚ)
    (u : String) (h : cls ≠ .inBand) : (buildMessage cls mn vn v u).isSome := by
  cases cls <;> simp_all [buildMessage]

/-! ## Branch lemmas for `handleAlert`, `resolveAlertByKey`, `evalThreshold` -/

theorem handleAlert_existing (s : AMState)
    (key motor motorId variableName variableKey : String) (value : ℚ)
    (unit : String) (severity : Severity) (message : Option MessageData)
    (timestamp : ℕ) (ex : AlertRec)
    (h : mapLookup s.activeAlerts key = some ex) :
    handleAlert s key motor motorId variableName variableKey value unit severity
        message timestamp =
      { s with activeAlerts := (mapSet s.activeAlerts key
          { ex with value := value, severity := severity, message := message,
                    timestamp := timestamp, updateCount := ex.updateCount + 1 }) } := by
  simp [handleAlert, h]

theorem handleAlert_fresh (s : AMState)
    (key motor motorId variableName variableKey : String) (value : ℚ)
    (unit : String) (severity : Severity) (message : Option MessageData)
    (timestamp : ℕ)
    (h : mapLookup s.activeAlerts key = none) :
    handleAlert s key motor motorId variableName variableKey value unit severity
        message timestamp =
      (let newAlert : AlertRec :=
        { id := s.nextId, key := key, motor := motor, motorId := motorId,
          variableName := variableName, variableKey := variableKey,
          value := value, unit := unit, severity := severity,
          message := message, timestamp := timestamp, updateCount := 1,
          resolved := false, resolvedAt := none }
      { s with
          activeAlerts := mapSet s.activeAlerts key newAlert
          alertHistory :=
            if (newAlert :: s.alertHistory).length > maxHistory then
              (newAlert :: s.alertHistory).dropLast
            else newAlert :: s.alertHistory
          nextId := s.nextId + 1 }) := by
  simp [handleAlert, h]

theorem resolveAlertByKey_inactive (s : AMState) (alertKey : String) (now : ℕ)
    (h : mapLookup s.activeAlerts alertKey = none) :
    resolveAlertByKey s alertKey now = s := by
  simp [resolveAlertByKey, h]

theorem resolveAlertByKey_active (s : AMState) (alertKey : String) (now : ℕ)
    (a : AlertRec) (h : mapLookup s.activeAlerts alertKey = some a) :
    resolveAlertByKey s alertKey now =
      { s with
          activeAlerts := mapDelete s.activeAlerts alertKey
          alertHistory := markFirstResolved s.alertHistory alertKey now } := by
  simp [resolveAlertByKey, h]

theorem evalThreshold_breach (s : AMState) (motorId : String)
    (cfg : VariableConfig) (value : ℚ) (now : ℕ)
    (h : classify cfg value ≠ .inBand) :
    evalThreshold s motorId cfg value now =
      handleAlert
        { s with lastCheckedValues :=
            mapSet s.lastCheckedValues (motorId ++ "-" ++ cfg.key) value }
        (motorId ++ "-" ++ cfg.key) (motorNameOf motorId) motorId cfg.name
        cfg.key value cfg.unit (severityOf (classify cfg value))
        (buildMessage (classify cfg value) (motorNameOf motorId) cfg.name value
          cfg.unit) now := by
  have hsev : severityOf (classify cfg value) ≠ Severity.normal := by
    rw [Ne, severityOf_eq_normal_iff]
    exact h
  have hmsg := buildMessage_isSome (classify cfg value) (motorNameOf motorId)
    cfg.name value cfg.unit h
  simp only [evalThreshold]
  rw [if_pos ⟨hsev, hmsg⟩]

theorem evalThreshold_inBand (s : AMState) (motorId : String)
    (cfg : VariableConfig) (value : ℚ) (now : ℕ)
    (h : classify cfg value = .inBand) :
    evalThreshold s motorId cfg value now =
      (let s₁ := { s with lastCheckedValues :=
          (mapSet s.lastCheckedValues (motorId ++ "-" ++ cfg.key) value) }
      if (mapLookup s₁.activeAlerts (motorId ++ "-" ++ cfg.key)).isSome then
        resolveAlertByKey s₁ (motorId ++ "-" ++ cfg.key) now
      else s₁) := by
  have hsev : severityOf (classify cfg value) = Severity.normal := by
    rw [severityOf_eq_normal_iff]
    exact h
  simp only [evalThreshold]
  rw [if_neg]
  intro hcond
  exact hcond.1 hsev

theorem handleAlert_lastChecked (s : AMState)
    (key motor motorId variableName variableKey : String) (value : ℚ)
    (unit : String) (severity : Severity) (message : Option MessageData)
    (timestamp : ℕ) :
    (handleAlert s key motor motorId variableName variableKey value unit
        severity message timestamp).lastCheckedValues = s.lastCheckedValues := by
  cases hma : mapLookup s.activeAlerts key with
  | some ex => simp [handleAlert, hma]
  | none => simp [handleAlert, hma]

theorem resolveAlertByKey_lastChecked (s : AMState) (alertKey : String)
    (now : ℕ) :
    (resolveAlertByKey s alertKey now).lastCheckedValues = s.lastCheckedValues := by
  cases hma : mapLookup s.activeAlerts alertKey with
  | some a => simp [resolveAlertByKey, hma]
  | none => simp [resolveAlertByKey, hma]

theorem evalThreshold_lastChecked (s : AMState) (motorId : String)
    (cfg : VariableConfig) (value : ℚ) (now : ℕ) :
    (evalThreshold s motorId cfg value now).lastCheckedValues =
      mapSet s.lastCheckedValues (motorId ++ "-" ++ cfg.key) value := by
  by_cases h : classify cfg value = .inBand
  · rw [evalThreshold_inBand s motorId cfg value now h]
    dsimp only
    split_ifs with hif
    · rw [resolveAlertByKey_lastChecked]
    · rfl
  · rw [evalThreshold_breach s motorId cfg value now h, handleAlert_lastChecked]

theorem resolveAlertByKey_alertHistory_length (s : AMState) (k : String)
    (now : ℕ) :
    (resolveAlertByKey s k now).alertHistory.length = s.alertHistory.length := by
  cases hma : mapLookup s.activeAlerts k with
  | some a => simp [resolveAlertByKey, hma, markFirstResolved_length]
  | none => simp [resolveAlertByKey, hma]

theorem resolveAlertByKey_lookup_none (s : AMState) (k : String) (now : ℕ)
    (h : (s.activeAlerts.map Prod.fst).Nodup) :
    mapLookup (resolveAlertByKey s k now).activeAlerts k = none := by
  cases hma : mapLookup s.activeAlerts k with
  | some a =>
      rw [resolveAlertByKey_active _ _ _ a hma]
      exact mapLookup_mapDelete_self _ _ h
  | none =>
      rw [resolveAlertByKey_inactive _ _ _ hma]
      exact hma

/-- C1: for every threshold configuration and every reading that passes the
hysteresis filter, the evaluation assigns severity by the first matching
rule in the specification's precedence order (`severitySpec`), the upserted
active alert carries that severity when it is not normal, and a normal
severity produces no alert (no history growth, no active alert left for the
key). -/
theorem threshold_severity_precedence (cfg : VariableConfig) (value : ℚ)
    (s : AMState) (motorId : String) (now : ℕ)
    (hkeys : (s.activeAlerts.map Prod.fst).Nodup) :
    severityOf (classify cfg value) = severitySpec cfg value
    ∧ (severitySpec cfg value ≠ .normal →
        ∃ a : AlertRec,
          mapLookup (evalThreshold s motorId cfg value now).activeAlerts
              (motorId ++ "-" ++ cfg.key) = some a
          ∧ a.severity = severitySpec cfg value)
    ∧ (severitySpec cfg value = .normal →
        (evalThreshold s motorId cfg value now).alertHistory.length
            = s.alertHistory.length
        ∧ mapLookup (evalThreshold s motorId cfg value now).activeAlerts
            (motorId ++ "-" ++ cfg.key) = none) := by
  have hspec := severityOf_classify_eq_spec cfg value
  refine ⟨hspec, ?_, ?_⟩
  · intro hne
    rw [← hspec] at hne
    have hcls : classify cfg value ≠ .inBand := by
      intro h
      rw [Ne, severityOf_eq_normal_iff] at hne
      exact hne h
    rw [evalThreshold_breach s motorId cfg value now hcls]
    cases hma : mapLookup s.activeAlerts (motorId ++ "-" ++ cfg.key) with
    | some ex =>
        simp only [handleAlert, hma]
        exact ⟨_, mapLookup_mapSet_self _ _ _, by simp [hspec]⟩
    | none =>
        simp only [handleAlert, hma]
        exact ⟨_, mapLookup_mapSet_self _ _ _, by simp [hspec]⟩
  · intro hnorm
    rw [← hspec, severityOf_eq_normal_iff] at hnorm
    rw [evalThreshold_inBand s motorId cfg value now hnorm]
    dsimp only
    split_ifs with hif
    · exact ⟨resolveAlertByKey_alertHistory_length _ _ _,
        resolveAlertByKey_lookup_none _ _ _ hkeys⟩
    · exact ⟨rfl, Option.not_isSome_iff_eq_none.mp hif⟩

/-- Witness for C1 at the specification's scenario: reading 106 against the
temperature configuration (`critical = 105`). -/
theorem threshold_severity_precedence_witness :
    (initAMState.activeAlerts.map Prod.fst).Nodup
    ∧ severityOf (classify tempConfig 106) = severitySpec tempConfig 106 :=
  ⟨by decide,
    (threshold_severity_precedence tempConfig 106 initAMState "motor1" 5
      (by decide)).1⟩

/-- C2: a reading within `0.02 * normalMax` of the previously recorded value
for the key makes `checkThreshold` return with the whole state (active
alerts, history, last-checked map) unchanged; on the first observation for a
key the evaluation proceeds and records the value. -/
theorem hysteresis_filter (s : AMState) (motorId : String)
    (cfg : VariableConfig) (value : ℚ) (now : ℕ) :
    (∀ prior : ℚ,
        mapLookup s.lastCheckedValues (motorId ++ "-" ++ cfg.key) = some prior →
        |value - prior| < cfg.normalMax * (2 / 100) →
        checkThreshold s motorId cfg value now = s)
    ∧ (mapLookup s.lastCheckedValues (motorId ++ "-" ++ cfg.key) = none →
        checkThreshold s motorId cfg value now = evalThreshold s motorId cfg value now
        ∧ mapLookup (evalThreshold s motorId cfg value now).lastCheckedValues
            (motorId ++ "-" ++ cfg.key) = some value) := by
  constructor
  · intro prior hprior hlt
    simp only [checkThreshold, hprior]
    rw [if_pos hlt]
  · intro hnone
    refine ⟨by simp only [checkThreshold, hnone], ?_⟩
    rw [evalThreshold_lastChecked]
    exact mapLookup_mapSet_self _ _ _

/-- Witness for C2: prior value 106 recorded, new reading 107, band
`95 * 0.02 = 1.9`. -/
theorem hysteresis_filter_witness :
    mapLookup sampleState.lastCheckedValues ("motor1" ++ "-" ++ tempConfig.key)
        = some 106
    ∧ |(107 : ℚ) - 106| < tempConfig.normalMax * (2 / 100)
    ∧ checkThreshold sampleState "motor1" tempConfig 107 6 = sampleState :=
  ⟨by decide, by norm_num [tempConfig],
    (hysteresis_filter sampleState "motor1" tempConfig 107 6).1 106
      (by decide) (by norm_num [tempConfig])⟩

/-- C7: resolving an alert id that is not among the active alerts (resolved
or never-existing ids alike) leaves the `AlertManager` state unchanged. -/
theorem resolveAlert_unknown_id_noop (s : AMState) (alertId now : ℕ)
    (h : ∀ a ∈ s.activeAlerts.map Prod.snd, a.id ≠ alertId) :
    resolveAlert s alertId now = s := by
  have hfind : (s.activeAlerts.map Prod.snd).find?
      (fun a => a.id = alertId) = none := by
    rw [List.find?_eq_none]
    intro x hx
    simp [h x hx]
  simp [resolveAlert, hfind]

/-- Witness for C7: the state holding one active alert (id 2, created by the
scenario breach) is untouched by resolving the unknown id 99. -/
theorem resolveAlert_unknown_id_noop_witness :
    (∀ a ∈ breachedState.activeAlerts.map Prod.snd, a.id ≠ 99)
    ∧ resolveAlert breachedState 99 7 = breachedState :=
  ⟨by decide, resolveAlert_unknown_id_noop breachedState 99 7 (by decide)⟩

/-! ## Key-uniqueness invariant of the active-alert map -/

theorem keys_nodup_handleAlert (s : AMState)
    (key motor motorId variableName variableKey : String) (value : ℚ)
    (unit : String) (severity : Severity) (message : Option MessageData)
    (ts : ℕ) (h : (s.activeAlerts.map Prod.fst).Nodup) :
    (((handleAlert s key motor motorId variableName variableKey value unit
        severity message ts).activeAlerts).map Prod.fst).Nodup := by
  cases hma : mapLookup s.activeAlerts key with
  | some ex =>
      simp only [handleAlert, hma]
      exact keys_nodup_mapSet _ _ _ h
  | none =>
      simp only [handleAlert, hma]
      exact keys_nodup_mapSet _ _ _ h

theorem keys_nodup_resolveAlertByKey (s : AMState) (k : String) (now : ℕ)
    (h : (s.activeAlerts.map Prod.fst).Nodup) :
    (((resolveAlertByKey s k now).activeAlerts).map Prod.fst).Nodup := by
  cases hma : mapLookup s.activeAlerts k with
  | some a =>
      simp only [resolveAlertByKey, hma]
      exact keys_nodup_mapDelete _ _ h
  | none =>
      simp only [resolveAlertByKey, hma]
      exact h

theorem keys_nodup_evalThreshold (s : AMState) (motorId : String)
    (cfg : VariableConfig) (value : ℚ) (now : ℕ)
    (h : (s.activeAlerts.map Prod.fst).Nodup) :
    (((evalThreshold s motorId cfg value now).activeAlerts).map Prod.fst).Nodup := by
  by_cases hcls : classify cfg value = .inBand
  · rw [evalThreshold_inBand s motorId cfg value now hcls]
    dsimp only
    split_ifs with hif
    · exact keys_nodup_resolveAlertByKey _ _ _ h
    · exact h
  · rw [evalThreshold_breach s motorId cfg value now hcls]
    exact keys_nodup_handleAlert _ _ _ _ _ _ _ _ _ _ _ h

theorem keys_nodup_checkThreshold (s : AMState) (motorId : String)
    (cfg : VariableConfig) (value : ℚ) (now : ℕ)
    (h : (s.activeAlerts.map Prod.fst).Nodup) :
    (((checkThreshold s motorId cfg value now).activeAlerts).map Prod.fst).Nodup := by
  simp only [checkThreshold]
  cases hma : mapLookup s.lastCheckedValues (motorId ++ "-" ++ cfg.key) with
  | some prior =>
      simp only [hma]
      split_ifs with hlt
      · exact h
      · exact keys_nodup_evalThreshold _ _ _ _ _ h
  | none =>
      simp only [hma]
      exact keys_nodup_evalThreshold _ _ _ _ _ h

theorem keys_nodup_resolveAlert (s : AMState) (alertId now : ℕ)
    (h : (s.activeAlerts.map Prod.fst).Nodup) :
    (((resolveAlert s alertId now).activeAlerts).map Prod.fst).Nodup := by
  cases hf : (s.activeAlerts.map Prod.snd).find? (fun a => a.id = alertId) with
  | some a =>
      simp only [resolveAlert, hf]
      exact keys_nodup_resolveAlertByKey _ _ _ h
  | none =>
      simp only [resolveAlert, hf]
      exact h

theorem am_keys_nodup_invariant :
    ∀ s : AMState, AMReachable s → (s.activeAlerts.map Prod.fst).Nodup := by
  intro s h
  induction h with
  | refl => simp [initAMState]
  | tail _ hstep ih =>
      cases hstep with
      | check motorId cfg value now =>
          exact keys_nodup_checkThreshold _ _ _ _ _ ih
      | resolveById alertId now => exact keys_nodup_resolveAlert _ _ _ ih
      | clear => exact ih
      | destroy => simp [destroyAM]

theorem length_mapSet_of_lookup_some {α : Type} (m : List (String × α))
    (k : String) (v ex : α) (h : mapLookup m k = some ex) :
    (mapSet m k v).length = m.length := by
  induction m with
  | nil => simp [mapLookup] at h
  | cons p rest ih =>
      obtain ⟨k₀, v₀⟩ := p
      by_cases hk : k₀ = k
      · subst hk
        rw [mapSet_cons_eq]
        simp
      · rw [mapLookup_cons_ne _ _ _ _ hk] at h
        rw [mapSet_cons_ne _ _ _ _ _ hk]
        simp [ih h]

/-- C3: in every reachable state the active-alert map has pairwise distinct
keys (at most one active alert per motor+variable key); `handleAlert` on an
already-active key updates the record in place (value, severity, message,
timestamp, incremented `updateCount`) without touching the history or
growing the active set, and creates a fresh record with `updateCount` 1 at
the head of the history only when the key has no active alert. -/
theorem active_alert_upsert (s : AMState)
    (key motor motorId variableName variableKey : String) (value : ℚ)
    (unit : String) (severity : Severity) (message : Option MessageData)
    (ts : ℕ) :
    (∀ s' : AMState, AMReachable s' → (s'.activeAlerts.map Prod.fst).Nodup)
    ∧ (∀ ex : AlertRec, mapLookup s.activeAlerts key = some ex →
        (handleAlert s key motor motorId variableName variableKey value unit
            severity message ts).alertHistory = s.alertHistory
        ∧ (handleAlert s key motor motorId variableName variableKey value unit
            severity message ts).activeAlerts.length = s.activeAlerts.length
        ∧ mapLookup (handleAlert s key motor motorId variableName variableKey
            value unit severity message ts).activeAlerts key =
          some ({ ex with
                  value := value
                  severity := severity
                  message := message
                  timestamp := ts
                  updateCount := ex.updateCount + 1 }))
    ∧ (mapLookup s.activeAlerts key = none →
        ∃ newRec : AlertRec,
          mapLookup (handleAlert s key motor motorId variableName variableKey
              value unit severity message ts).activeAlerts key = some newRec
          ∧ newRec.updateCount = 1
          ∧ newRec.resolved = false
          ∧ newRec.id = s.nextId
          ∧ (handleAlert s key motor motorId variableName variableKey value
              unit severity message ts).alertHistory.head? = some newRec) := by
  refine ⟨am_keys_nodup_invariant, ?_, ?_⟩
  · intro ex hma
    rw [handleAlert_existing s key motor motorId variableName variableKey value
      unit severity message ts ex hma]
    exact ⟨rfl, length_mapSet_of_lookup_some _ _ _ ex hma,
      mapLookup_mapSet_self _ _ _⟩
  · intro hma
    simp only [handleAlert, hma]
    refine ⟨_, mapLookup_mapSet_self _ _ _, rfl, rfl, rfl, ?_⟩
    split_ifs with hlen
    · cases hh : s.alertHistory with
      | nil =>
          rw [hh] at hlen
          simp [maxHistory] at hlen
      | cons b t =>
          rw [List.dropLast_cons₂]
          rfl
    · rfl

/-- Witness for C3: the breach state's active alert is updated in place by a
repeated breach, with `updateCount` incremented. -/
theorem active_alert_upsert_witness :
    mapLookup breachedState.activeAlerts "motor1-temperature" = some breachAlert
    ∧ mapLookup (handleAlert breachedState "motor1-temperature"
        "Motor Principal" "motor1" "Temperatura" "temperature" 107 "°C"
        Severity.critical
        (some ⟨.critHigh, "Motor Principal", "Temperatura", 107, "°C"⟩)
        8).activeAlerts "motor1-temperature" =
      some ({ breachAlert with
              value := 107
              severity := Severity.critical
              message := some ⟨.critHigh, "Motor Principal", "Temperatura", 107, "°C"⟩
              timestamp := 8
              updateCount := breachAlert.updateCount + 1 }) :=
  ⟨by decide,
    ((active_alert_upsert breachedState "motor1-temperature" "Motor Principal"
        "motor1" "Temperatura" "temperature" 107 "°C" Severity.critical
        (some ⟨.critHigh, "Motor Principal", "Temperatura", 107, "°C"⟩)
        8).2.1 breachAlert (by decide)).2.2⟩

/-! ## History-capacity invariant -/

theorem handleAlert_alertHistory_bounded (s : AMState)
    (key motor motorId variableName variableKey : String) (value : ℚ)
    (unit : String) (severity : Severity) (message : Option MessageData)
    (ts : ℕ) (h : s.alertHistory.length ≤ maxHistory) :
    (handleAlert s key motor motorId variableName variableKey value unit
        severity message ts).alertHistory.length ≤ maxHistory := by
  cases hma : mapLookup s.activeAlerts key with
  | some ex =>
      simp only [handleAlert, hma]
      exact h
  | none =>
      simp only [handleAlert, hma]
      split_ifs with hlen
      · simp only [List.length_dropLast, List.length_cons]
        omega
      · simp only [List.length_cons, maxHistory] at hlen ⊢
        omega

theorem evalThreshold_alertHistory_bounded (s : AMState) (motorId : String)
    (cfg : VariableConfig) (value : ℚ) (now : ℕ)
    (h : s.alertHistory.length ≤ maxHistory) :
    (evalThreshold s motorId cfg value now).alertHistory.length ≤ maxHistory := by
  by_cases hcls : classify cfg value = .inBand
  · rw [evalThreshold_inBand s motorId cfg value now hcls]
    dsimp only
    split_ifs with hif
    · rw [resolveAlertByKey_alertHistory_length]
      exact h
    · exact h
  · rw [evalThreshold_breach s motorId cfg value now hcls]
    exact handleAlert_alertHistory_bounded _ _ _ _ _ _ _ _ _ _ _ h

theorem checkThreshold_alertHistory_bounded (s : AMState) (motorId : String)
    (cfg : VariableConfig) (value : ℚ) (now : ℕ)
    (h : s.alertHistory.length ≤ maxHistory) :
    (checkThreshold s motorId cfg value now).alertHistory.length ≤ maxHistory := by
  simp only [checkThreshold]
  cases hma : mapLookup s.lastCheckedValues (motorId ++ "-" ++ cfg.key) with
  | some prior =>
      simp only [hma]
      split_ifs with hlt
      · exact h
      · exact evalThreshold_alertHistory_bounded _ _ _ _ _ h
  | none =>
      simp only [hma]
      exact evalThreshold_alertHistory_bounded _ _ _ _ _ h

theorem resolveAlert_alertHistory_bounded (s : AMState) (alertId now : ℕ)
    (h : s.alertHistory.length ≤ maxHistory) :
    (resolveAlert s alertId now).alertHistory.length ≤ maxHistory := by
  cases hf : (s.activeAlerts.map Prod.snd).find? (fun a => a.id = alertId) with
  | some a =>
      simp only [resolveAlert, hf]
      rw [resolveAlertByKey_alertHistory_length]
      exact h
  | none =>
      simp only [resolveAlert, hf]
      exact h

theorem am_history_bounded_invariant :
    ∀ s : AMState, AMReachable s → s.alertHistory.length ≤ maxHistory := by
  intro s h
  induction h with
  | refl => norm_num [initAMState, maxHistory]
  | tail _ hstep ih =>
      cases hstep with
      | check motorId cfg value now =>
          exact checkThreshold_alertHistory_bounded _ _ _ _ _ ih
      | resolveById alertId now =>
          exact resolveAlert_alertHistory_bounded _ _ _ ih
      | clear =>
          exact le_trans (List.length_filter_le _ _) ih
      | destroy => simp [destroyAM, maxHistory]

/-- C8: every reachable `AlertManager` state holds at most 100 history
records, and appending a fresh alert to a full history evicts the last
entry while the new record sits at the front. -/
theorem history_capacity (s : AMState)
    (key motor motorId variableName variableKey : String) (value : ℚ)
    (unit : String) (severity : Severity) (message : Option MessageData)
    (ts : ℕ) :
    (∀ s' : AMState, AMReachable s' → s'.alertHistory.length ≤ maxHistory)
    ∧ (s.alertHistory.length = maxHistory →
        mapLookup s.activeAlerts key = none →
        ∃ newRec : AlertRec,
          (handleAlert s key motor motorId variableName variableKey value unit
              severity message ts).alertHistory
            = newRec :: s.alertHistory.dropLast
          ∧ (handleAlert s key motor motorId variableName variableKey value
              unit severity message ts).alertHistory.length = maxHistory
          ∧ (handleAlert s key motor motorId variableName variableKey value
              unit severity message ts).alertHistory.head? = some newRec) := by
  refine ⟨am_history_bounded_invariant, ?_⟩
  intro hfull hma
  have hne : s.alertHistory ≠ [] := by
    intro hnil
    rw [hnil] at hfull
    simp [maxHistory] at hfull
  simp only [handleAlert, hma]
  rw [if_pos (by simp only [List.length_cons]; omega)]
  cases hh : s.alertHistory with
  | nil => exact absurd hh hne
  | cons b t =>
      rw [List.dropLast_cons₂]
      refine ⟨_, rfl, ?_, rfl⟩
      rw [hh] at hfull
      simp only [List.length_cons, List.length_dropLast] at hfull ⊢
      omega

/-- Witness for C8 on a state whose history already holds 100 records. -/
theorem history_capacity_witness :
    fullHistState.alertHistory.length = maxHistory
    ∧ mapLookup fullHistState.activeAlerts "motor2-temperature" = none
    ∧ ∃ newRec : AlertRec,
        (handleAlert fullHistState "motor2-temperature" "Motor Secundario"
            "motor2" "Temperatura" "temperature" 99 "°C" Severity.warning
            (some ⟨.warnHigh, "Motor Secundario", "Temperatura", 99, "°C"⟩)
            9).alertHistory
          = newRec :: fullHistState.alertHistory.dropLast
        ∧ (handleAlert fullHistState "motor2-temperature" "Motor Secundario"
            "motor2" "Temperatura" "temperature" 99 "°C" Severity.warning
            (some ⟨.warnHigh, "Motor Secundario", "Temperatura", 99, "°C"⟩)
            9).alertHistory.length = maxHistory
        ∧ (handleAlert fullHistState "motor2-temperature" "Motor Secundario"
            "motor2" "Temperatura" "temperature" 99 "°C" Severity.warning
            (some ⟨.warnHigh, "Motor Secundario", "Temperatura", 99, "°C"⟩)
            9).alertHistory.head? = some newRec :=
  ⟨by simp [fullHistState, initAMState, maxHistory], rfl,
    (history_capacity fullHistState "motor2-temperature" "Motor Secundario"
        "motor2" "Temperatura" "temperature" 99 "°C" Severity.warning
        (some ⟨.warnHigh, "Motor Secundario", "Temperatura", 99, "°C"⟩) 9).2
      (by simp [fullHistState, initAMState, maxHistory]) rfl⟩

/-! ## Resolution on return to the normal band -/

theorem resolveAlertByKey_marks (s : AMState) (k : String) (now : ℕ)
    (a : AlertRec) (ha : mapLookup s.activeAlerts k = some a)
    (hh : ∃ e ∈ s.alertHistory, e.key = k) :
    ∃ e ∈ (resolveAlertByKey s k now).alertHistory,
      e.key = k ∧ e.resolved = true ∧ e.resolvedAt = some now := by
  rw [resolveAlertByKey_active s k now a ha]
  exact markFirstResolved_resolves s.alertHistory k now hh

/-- C6: a reading that passes the hysteresis filter and classifies as normal
for a key with an active alert removes that alert from the active set, keeps
the history length unchanged, and leaves a history entry for the key marked
resolved with its `resolvedAt` timestamp set. -/
theorem normal_value_resolves (s : AMState) (motorId : String)
    (cfg : VariableConfig) (value : ℚ) (now : ℕ) (a : AlertRec)
    (hpass : mapLookup s.lastCheckedValues (motorId ++ "-" ++ cfg.key) = none
      ∨ ∃ prior : ℚ,
          mapLookup s.lastCheckedValues (motorId ++ "-" ++ cfg.key) = some prior
          ∧ ¬(|value - prior| < cfg.normalMax * (2 / 100)))
    (hnorm : classify cfg value = .inBand)
    (hactive : mapLookup s.activeAlerts (motorId ++ "-" ++ cfg.key) = some a)
    (hkeys : (s.activeAlerts.map Prod.fst).Nodup)
    (hhist : ∃ e ∈ s.alertHistory, e.key = motorId ++ "-" ++ cfg.key) :
    mapLookup (checkThreshold s motorId cfg value now).activeAlerts
        (motorId ++ "-" ++ cfg.key) = none
    ∧ (checkThreshold s motorId cfg value now).alertHistory.length
        = s.alertHistory.length
    ∧ ∃ e ∈ (checkThreshold s motorId cfg value now).alertHistory,
        e.key = motorId ++ "-" ++ cfg.key ∧ e.resolved = true
        ∧ e.resolvedAt = some now := by
  have hstep : checkThreshold s motorId cfg value now
      = evalThreshold s motorId cfg value now := by
    rcases hpass with hnone | ⟨prior, hprior, hnlt⟩
    · simp only [checkThreshold, hnone]
    · simp only [checkThreshold, hprior]
      rw [if_neg hnlt]
  rw [hstep, evalThreshold_inBand s motorId cfg value now hnorm]
  dsimp only
  split_ifs with hif
  · exact ⟨resolveAlertByKey_lookup_none _ _ _ hkeys,
      resolveAlertByKey_alertHistory_length _ _ _,
      resolveAlertByKey_marks _ _ _ a hactive hhist⟩
  · rw [hactive] at hif
    simp at hif

/-- Witness for C6: reading 60 resolves the critical alert created by the
scenario breach. -/
theorem normal_value_resolves_witness :
    mapLookup breachedState.activeAlerts ("motor1" ++ "-" ++ tempConfig.key)
        = some breachAlert
    ∧ mapLookup (checkThreshold breachedState "motor1" tempConfig 60
        9).activeAlerts ("motor1" ++ "-" ++ tempConfig.key) = none :=
  ⟨by decide,
    (normal_value_resolves breachedState "motor1" tempConfig 60 9 breachAlert
      (Or.inr ⟨106, by decide, by norm_num [tempConfig]⟩) (by decide)
      (by decide) (by decide) (by decide)).1⟩

/-! ## Connection mode selector (C4) -/

/-- C4: `rmStep` is a total function on (state, event) pairs, so the mode
transition relation is deterministic; three consecutive polling-cycle
failures starting from polling mode with a clear error counter put the
monitor offline with simulated data flagged for both motors, and the
30-second recovery timeout in offline mode returns to polling with the
error counter reset to 0. -/
theorem mode_transition_totality :
    (∀ (s : RMState) (e : RMEvent) (s₁ s₂ : RMState),
        rmStep s e = s₁ → rmStep s e = s₂ → s₁ = s₂)
    ∧ (∀ s : RMState, s.mode = .polling → s.pollingRetries = 0 →
        s.isPollingActive = false →
        (rmRun s [.pollTick, .cycleFailure, .pollTick, .cycleFailure,
            .pollTick, .cycleFailure]).mode = .offline
        ∧ (rmRun s [.pollTick, .cycleFailure, .pollTick, .cycleFailure,
            .pollTick, .cycleFailure]).motor1Simulated = true
        ∧ (rmRun s [.pollTick, .cycleFailure, .pollTick, .cycleFailure,
            .pollTick, .cycleFailure]).motor2Simulated = true
        ∧ (rmRun s [.pollTick, .cycleFailure, .pollTick, .cycleFailure,
            .pollTick, .cycleFailure]).pollingRetries = 3)
    ∧ (∀ s : RMState, s.mode = .offline →
        (rmStep s .recoveryTimer).mode = .polling
        ∧ (rmStep s .recoveryTimer).pollingRetries = 0) := by
  refine ⟨?_, ?_, ?_⟩
  · intro s e s₁ s₂ h₁ h₂
    rw [← h₁, ← h₂]
  · intro s hmode hret hflag
    simp [rmRun, rmStep, activateOfflineMode, maxPollingRetries, hmode, hret,
      hflag]
  · intro s hmode
    simp [rmStep, hmode]

/-- Witness for C4 from the state entered on `websocket:disconnected`. -/
theorem mode_transition_totality_witness :
    rmPollingInit.mode = ConnMode.polling
    ∧ rmPollingInit.pollingRetries = 0
    ∧ rmPollingInit.isPollingActive = false
    ∧ (rmRun rmPollingInit [.pollTick, .cycleFailure, .pollTick, .cycleFailure,
        .pollTick, .cycleFailure]).mode = ConnMode.offline :=
  ⟨rfl, rfl, rfl,
    ((mode_transition_totality).2.1 rmPollingInit rfl rfl rfl).1⟩

/-! ## WebSocket reconnect backoff (C5) -/

/-- C5: the reconnect delay for attempt `n` is `3000 * 1.5^(n-1)`
milliseconds, the delay sequence is strictly increasing, a non-manual close
below the cap of 10 schedules exactly that delay and increments the retry
counter, and at the cap a non-manual close emits the exhaustion event while
`scheduleReconnect` refuses to schedule anything. -/
theorem reconnect_backoff_policy :
    (∀ n : ℕ, 1 ≤ n → reconnectDelay n = 3000 * (3 / 2 : ℚ) ^ (n - 1))
    ∧ (∀ m n : ℕ, 1 ≤ m → m < n → reconnectDelay m < reconnectDelay n)
    ∧ (∀ s : WSState, s.isManualClose = false →
        s.currentRetries < wsMaxRetries →
        onClose s = ({ s with currentRetries := s.currentRetries + 1 },
          CloseAction.scheduledReconnect
            (3000 * (3 / 2 : ℚ) ^ s.currentRetries)))
    ∧ (∀ s : WSState, s.isManualClose = false →
        wsMaxRetries ≤ s.currentRetries →
        onClose s = (s, CloseAction.emitMaxRetries)
        ∧ scheduleReconnect s = (s, none)) := by
  refine ⟨?_, ?_, ?_, ?_⟩
  · intro n h
    rfl
  · intro m n hm hmn
    unfold reconnectDelay reconnectInterval
    have hpow : (3 / 2 : ℚ) ^ (m - 1) < (3 / 2 : ℚ) ^ (n - 1) := by
      apply pow_lt_pow_right₀ (by norm_num)
      omega
    have h3000 : (0 : ℚ) < 3000 := by norm_num
    exact mul_lt_mul_of_pos_left hpow h3000
  · intro s hm hr
    have hcond : s.isManualClose = false ∧ s.currentRetries < wsMaxRetries :=
      ⟨hm, hr⟩
    simp only [onClose, scheduleReconnect, if_pos hcond]
    rw [if_neg (not_le.mpr hr)]
    simp only [reconnectDelay, reconnectInterval, Nat.add_sub_cancel]
  · intro s hm hr
    have hnot : ¬(s.isManualClose = false ∧ s.currentRetries < wsMaxRetries) := by
      intro hcond
      omega
    constructor
    · simp only [onClose, if_neg hnot]
      rw [if_pos hm]
    · simp only [scheduleReconnect]
      rw [if_pos hr]

/-- Witness for C5: the first two delays are 3000ms and 4500ms, and the
sequence increases between them. -/
theorem reconnect_backoff_policy_witness :
    reconnectDelay 1 = 3000 ∧ reconnectDelay 2 = 4500
    ∧ reconnectDelay 1 < reconnectDelay 2 :=
  ⟨by norm_num [reconnectDelay, reconnectInterval],
    by norm_num [reconnectDelay, reconnectInterval],
    reconnect_backoff_policy.2.1 1 2 (by norm_num) (by norm_num)⟩

/-! ## Polling single-flight (C9) -/

/-- Counterexample to C9 as stated: after the reachable interleaving
`singleFlightTrace` — a WebSocket reconnect and a fresh disconnect arrive
while a polling cycle's fetch is still pending, each handler clearing the
in-flight flag — a second polling cycle starts while the first is still
running, so two cycles run concurrently (`inFlight = 2`) in a reachable
state. -/
theorem polling_single_flight_cex :
    (rmRun rmInit singleFlightTrace).inFlight = 2
    ∧ RMReachable (rmRun rmInit singleFlightTrace)
    ∧ ¬(∀ s : RMState, RMReachable s → s.inFlight ≤ 1) := by
  refine ⟨by decide, ⟨singleFlightTrace, rfl⟩, ?_⟩
  intro hall
  have h := hall _ ⟨singleFlightTrace, rfl⟩
  rw [(by decide : (rmRun rmInit singleFlightTrace).inFlight = 2)] at h
  omega

/-- C9 (amended): every polling tick is a no-op unless the mode is polling
and the in-flight flag is clear; the flag is set when a cycle starts and
cleared on both completion paths; and in traces made only of ticks and
cycle completions — with no connection-mode event handler clearing the flag
while a cycle is in flight — two polling cycles never run concurrently. -/
theorem polling_single_flight_amended :
    (∀ s : RMState, (s.mode ≠ .polling ∨ s.isPollingActive = true) →
        rmStep s .pollTick = s)
    ∧ (∀ s : RMState, s.mode = .polling → s.isPollingActive = false →
        (rmStep s .pollTick).isPollingActive = true
        ∧ (rmStep s .pollTick).inFlight = s.inFlight + 1)
    ∧ (∀ s : RMState, 0 < s.inFlight →
        (rmStep s .cycleSuccess).isPollingActive = false
        ∧ (rmStep s .cycleFailure).isPollingActive = false)
    ∧ (∀ (s : RMState) (events : List RMEvent),
        SingleFlightInv s →
        (∀ e ∈ events, e = RMEvent.pollTick ∨ e = RMEvent.cycleSuccess
          ∨ e = RMEvent.cycleFailure) →
        SingleFlightInv (rmRun s events) ∧ (rmRun s events).inFlight ≤ 1) := by
  refine ⟨?_, ?_, ?_, ?_⟩
  · intro s h
    simp only [rmStep]
    rw [if_neg]
    intro hc
    rcases h with h | h
    · exact h hc.1
    · rw [hc.2] at h
      exact Bool.false_ne_true h
  · intro s hmode hflag
    simp only [rmStep]
    rw [if_pos ⟨hmode, hflag⟩]
    exact ⟨rfl, rfl⟩
  · intro s hpos
    constructor
    · simp only [rmStep]
      rw [if_pos hpos]
    · simp only [rmStep]
      rw [if_pos hpos]
  · intro s events hinv hmem
    induction events generalizing s with
    | nil =>
        refine ⟨hinv, ?_⟩
        simp only [rmRun]
        unfold SingleFlightInv at hinv
        split_ifs at hinv <;> omega
    | cons e rest ih =>
        have hstep : SingleFlightInv (rmStep s e) := by
          unfold SingleFlightInv at hinv ⊢
          rcases hmem e (List.mem_cons_self e rest) with rfl | rfl | rfl
          · simp only [rmStep]
            by_cases hc : s.mode = ConnMode.polling ∧ s.isPollingActive = false
            · obtain ⟨hc1, hc2⟩ := hc
              simp [hc1, hc2] at hinv ⊢
              omega
            · simp only [if_neg hc]
              exact hinv
          · simp only [rmStep]
            by_cases hc : s.inFlight > 0
            · simp [hc]
              split_ifs at hinv <;> omega
            · simp only [if_neg hc]
              exact hinv
          · simp only [rmStep]
            by_cases hc : s.inFlight > 0
            · simp [hc]
              split_ifs at hinv <;> omega
            · simp only [if_neg hc]
              exact hinv
        simp only [rmRun]
        exact ih _ hstep
          (fun e' he' => hmem e' (List.mem_cons_of_mem _ he'))

/-- Witness for C9 (amended): ticks and completions from the freshly
disconnected monitor never overlap two cycles. -/
theorem polling_single_flight_amended_witness :
    SingleFlightInv rmPollingInit
    ∧ SingleFlightInv (rmRun rmPollingInit
        [RMEvent.pollTick, RMEvent.cycleFailure, RMEvent.pollTick,
         RMEvent.cycleSuccess])
    ∧ (rmRun rmPollingInit
        [RMEvent.pollTick, RMEvent.cycleFailure, RMEvent.pollTick,
         RMEvent.cycleSuccess]).inFlight ≤ 1 :=
  ⟨by unfold SingleFlightInv; decide,
    (polling_single_flight_amended.2.2.2 rmPollingInit
      [RMEvent.pollTick, RMEvent.cycleFailure, RMEvent.pollTick,
       RMEvent.cycleSuccess] (by unfold SingleFlightInv; decide)
      (by decide)).1,
    (polling_single_flight_amended.2.2.2 rmPollingInit
      [RMEvent.pollTick, RMEvent.cycleFailure, RMEvent.pollTick,
       RMEvent.cycleSuccess] (by unfold SingleFlightInv; decide)
      (by decide)).2⟩

/-! ## Store `addAlert` contract (C10) -/

/-- C10: `StateStore.addAlert` stores a record whose id is freshly
generated (the argument's own `id` is ignored), whose `resolved` flag is
false and whose timestamp is newly generated; the record is appended to the
active list, put at the front of the history with the last entry evicted
past capacity 100, and `kpis.activeAlerts` is set to the active list's new
length. -/
theorem store_addAlert_contract (s : StoreState) (alert : AlertArg)
    (now : ℕ) :
    storeAddAlert s alert now = storeAddAlert s { alert with id := none } now
    ∧ (storeAddAlert s alert now).alertsActive =
        s.alertsActive ++ [({ payload := alert.payload, id := s.nextId, timestamp := now, resolved := false } : StoreAlert)]
    ∧ (storeAddAlert s alert now).alertsHistory.head? =
        some ({ payload := alert.payload, id := s.nextId, timestamp := now, resolved := false } : StoreAlert)
    ∧ (100 ≤ s.alertsHistory.length →
        (storeAddAlert s alert now).alertsHistory =
          ({ payload := alert.payload, id := s.nextId, timestamp := now, resolved := false } : StoreAlert) :: s.alertsHistory.dropLast)
    ∧ (s.alertsHistory.length < 100 →
        (storeAddAlert s alert now).alertsHistory =
          ({ payload := alert.payload, id := s.nextId, timestamp := now, resolved := false } : StoreAlert) :: s.alertsHistory)
    ∧ (storeAddAlert s alert now).kpiActiveAlerts =
        (storeAddAlert s alert now).alertsActive.length := by
  refine ⟨rfl, rfl, ?_, ?_, ?_, rfl⟩
  · simp only [storeAddAlert]
    split_ifs with hlen
    · cases hh : s.alertsHistory with
      | nil =>
          rw [hh] at hlen
          simp at hlen
      | cons b t =>
          rw [List.dropLast_cons₂]
          rfl
    · rfl
  · intro hfull
    simp only [storeAddAlert]
    rw [if_pos (by simp only [List.length_cons]; omega)]
    cases hh : s.alertsHistory with
    | nil =>
        rw [hh] at hfull
        simp at hfull
    | cons b t =>
        rw [List.dropLast_cons₂]
  · intro hsmall
    simp only [storeAddAlert]
    rw [if_neg (by simp only [List.length_cons]; omega)]

/-- Witness for C10 on a small store: the stored record carries the fresh
id 7, not the argument's id 3. -/
theorem store_addAlert_contract_witness :
    sampleStore.alertsHistory.length < 100
    ∧ (storeAddAlert sampleStore sampleArg 5).alertsHistory =
        [{ payload := "overtemp", id := 7, timestamp := 5, resolved := false }] := by
  refine ⟨by decide, ?_⟩
  have h := (store_addAlert_contract sampleStore sampleArg 5).2.2.2.2.1
    (by decide)
  rw [h]
  decide

end IndustrialMonitor
